import Mathlib

/-!
Verification of the prediction_up_down_bot repository core: a shallow embedding
of the market-data aggregation and decision pipeline (Indicator Gateway,
Market Snapshot Gateway, Market Data Aggregator, Decision Engine, Retry
utility and the Prediction Orchestrator), with theorems settling the spec
claims against it.

Conventions of the embedding:
* JavaScript numbers are modelled as exact rationals (`ℚ`); `Math.round` is
  Mathlib's `round` (round half toward positive infinity, matching JS).
* Dynamically typed runtime values flowing out of `JSON.parse` and into the
  defensive coercion code are modelled by the `Json` inductive type.
* Network calls are modelled by oracle inputs of type `Except Unit Json`
  (`Except.error` = the awaited promise rejected: network error, timeout or
  HTTP error status; `Except.ok body` = the response with parsed JSON body).
* Fallible code returns `Except`/`Option`; a JS `throw` is `Except.error`.
-/

namespace PredBot

/-! ### JSON runtime values -/

/-- A parsed JSON value, the runtime shape of everything `JSON.parse` returns
and of the untyped records the defensive code inspects.  Object fields are
kept in insertion order; lookup takes the last binding of a repeated key as
JS does. -/
inductive Json where
  | null
  | bool (b : Bool)
  | num (q : ℚ)
  | str (s : String)
  | arr (xs : List Json)
  | obj (fields : List (String × Json))

/-- Last-binding-wins field lookup, the semantics of JS property access on a
plain object built by `JSON.parse`. -/
def lookupField (fields : List (String × Json)) (k : String) : Option Json :=
  List.lookup k fields.reverse

/-- JS property access `o[k]` on a non-null value: objects look up the field,
every other value (primitives box; arrays have no such string keys here)
yields `undefined`, modelled as `none`. -/
def jsGetSafe (o : Json) (k : String) : Option Json :=
  match o with
  | Json.obj fields => lookupField fields k
  | _ => none

/-- JS truthiness of a JSON value (`NaN` cannot occur in parsed JSON). -/
def jsTruthy : Json → Bool
  | Json.null => false
  | Json.bool b => b
  | Json.num q => decide (q ≠ 0)
  | Json.str s => decide (s ≠ "")
  | Json.arr _ => true
  | Json.obj _ => true

/-- JS `typeof x === 'object'` on a JSON value. -/
def jsTypeofObject : Json → Bool
  | Json.null => true
  | Json.arr _ => true
  | Json.obj _ => true
  | _ => false

/-! ### Decimal digit strings -/

/-- Value of a list of decimal digit characters, most significant first. -/
def decodeDec (l : List Char) : Nat :=
  l.foldl (fun a c => 10 * a + (c.toNat - 48)) 0

/-- Digit characters of `n`, most significant first, empty for `0`.  The
fuel argument (any bound above `n` works) keeps the recursion structural so
that the kernel can evaluate it. -/
def natDecimalAux : Nat → Nat → List Char
  | 0, _ => []
  | _ + 1, 0 => []
  | fuel + 1, n => natDecimalAux fuel (n / 10) ++ [Nat.digitChar (n % 10)]

/-- Decimal rendering of a natural number, as a JS template literal renders
a nonnegative integer. -/
def natDecimal (n : Nat) : String :=
  if n = 0 then "0" else String.mk (natDecimalAux (n + 1) n)

/-- Decimal rendering of an integer. -/
def intDecimal (z : ℤ) : String :=
  if z < 0 then "-" ++ natDecimal z.natAbs else natDecimal z.natAbs

/-! ### Rounding (gateway and aggregator) -/

/-- The map `Math.round(q * 10^d) / 10^d`, the rounding scheme used throughout the
repository (`d = 4` in the Indicator Gateway, `d = 2` in the aggregator). -/
def roundTo (d : Nat) (q : ℚ) : ℚ :=
  ((round (q * 10 ^ d) : ℤ) : ℚ) / 10 ^ d

/-- The Indicator Gateway's 4-decimal rounding
`Math.round(val * 10000) / 10000` from taapi.ts. -/
def round4 (q : ℚ) : ℚ := roundTo 4 q

/-! ### Orchestrator slug computation (prediction.ts, predict) -/

/-- ASCII lowercasing of one character, the effect of
`String.prototype.toLowerCase` on ticker symbols. -/
def charLower (c : Char) : Char :=
  if 'A' ≤ c ∧ c ≤ 'Z' then Char.ofNat (c.toNat + 32) else c

/-- ASCII `toLowerCase`. -/
def strToLower (s : String) : String := String.mk (s.data.map charLower)

/-- Seconds in the 15-minute market window (`FIFTEEN_MINUTES = 15 * 60`). -/
def fifteenMinutes : Nat := 15 * 60

/-- The orchestrator's market-slug computation: the window start is
`Math.floor(now / 900) * 900` and the slug is
`asset.toLowerCase() + "-updown-15m-" + windowStart`. -/
def computeSlug (asset : String) (t : Nat) : String :=
  strToLower asset ++ "-updown-15m-" ++ natDecimal (t / fifteenMinutes * fifteenMinutes)

/-! ### Retry/backoff utility (utils.ts, retry) -/

/-- Source defaults of the retry options (`maxAttempts = 3`,
`backoffBase = 500`). -/
def defaultMaxAttempts : Nat := 3

/-- Default backoff base in milliseconds. -/
def defaultBackoffBase : Nat := 500

/-- Outcome of running the retry loop: the final result (`Except.error`
carries the last stored error, `none` when the loop never ran and the
function re-throws the initial `null`), the backoff waits performed in
order, and how many times the operation was invoked. -/
structure RetryOutcome (E A : Type) where
  result : Except (Option E) A
  waits : List Nat
  calls : Nat

/-- The body of `retry`'s `for` loop.  `op k` is the outcome of the `k`-th
invocation of the operation (1-indexed), `attempt` the current attempt
number, `remaining` how many attempts are left including this one, and
`last` the last stored error.  After a failed attempt that is not the last
one the loop waits `backoffBase * 2 ^ (attempt - 1)` milliseconds. -/
def retryLoop (op : Nat → Except E A) (backoffBase : Nat) :
    Nat → Nat → Option E → RetryOutcome E A
  | _, 0, last => ⟨Except.error last, [], 0⟩
  | attempt, remaining + 1, _ =>
    match op attempt with
    | Except.ok v => ⟨Except.ok v, [], 1⟩
    | Except.error e =>
      match remaining with
      | 0 => ⟨Except.error (some e), [], 1⟩
      | r + 1 =>
        let rest := retryLoop op backoffBase (attempt + 1) (r + 1) (some e)
        ⟨rest.result, backoffBase * 2 ^ (attempt - 1) :: rest.waits, rest.calls + 1⟩

/-- The retry utility: attempts `op` up to `maxAttempts` times starting at
attempt 1 with no stored error. -/
def retry (op : Nat → Except E A) (maxAttempts backoffBase : Nat) : RetryOutcome E A :=
  retryLoop op backoffBase 1 maxAttempts none

/-! ### JS numeric coercion of strings and values

`Number(x)` and `parseFloat(x)` as the coercion code uses them.  Models are
exact over finite decimal numerals (optional sign, digits, fraction,
exponent), which is the shape of every value this pipeline meets; the exotic
JS forms (hex literals, `Infinity`, nested array stringification) are mapped
to `none` (NaN). -/

/-- JS whitespace for string trimming. -/
def jsWs (c : Char) : Bool :=
  c = ' ' || c = '\t' || c = '\n' || c = '\r' || c = '\x0b' || c = '\x0c'

/-- Split off a leading run of decimal digits. -/
def spanDigits (s : List Char) : List Char × List Char :=
  (s.takeWhile Char.isDigit, s.dropWhile Char.isDigit)

/-- Parse an unsigned decimal mantissa `digits [. digits]` (either side of
the point may be empty but not both), returning its value and the rest. -/
def parseMantissa (s : List Char) : Option (ℚ × List Char) :=
  let (ip, r1) := spanDigits s
  match r1 with
  | '.' :: r2 =>
    let (fp, r3) := spanDigits r2
    if ip.isEmpty && fp.isEmpty then none
    else some ((decodeDec ip : ℚ) + (decodeDec fp : ℚ) / 10 ^ fp.length, r3)
  | _ => if ip.isEmpty then none else some ((decodeDec ip : ℚ), r1)

/-- Parse an exponent part `e[+-]digits` and apply it to `q`. -/
def parseExponentPart (q : ℚ) (s : List Char) : Option (ℚ × List Char) :=
  match s with
  | 'e' :: r | 'E' :: r =>
    let (neg, r1) : Bool × List Char :=
      match r with
      | '+' :: r1 => (false, r1)
      | '-' :: r1 => (true, r1)
      | _ => (false, r)
    let (ds, r2) := spanDigits r1
    if ds.isEmpty then none
    else some (if neg then q / 10 ^ decodeDec ds else q * 10 ^ decodeDec ds, r2)
  | _ => none

/-- JS `Number()` applied to a string (`ToNumber`): the whole trimmed string
must be a decimal numeral; the empty string is `0`; anything else is NaN
(`none`). -/
def toNumberString (s : String) : Option ℚ :=
  let cs := (s.data.dropWhile jsWs).reverse.dropWhile jsWs |>.reverse
  match cs with
  | [] => some 0
  | _ =>
    let (neg, cs1) : Bool × List Char :=
      match cs with
      | '+' :: r => (false, r)
      | '-' :: r => (true, r)
      | _ => (false, cs)
    match parseMantissa cs1 with
    | none => none
    | some (q, rest) =>
      let signed := fun (x : ℚ) => if neg then -x else x
      match rest with
      | [] => some (signed q)
      | _ =>
        match parseExponentPart q rest with
        | some (q2, []) => some (signed q2)
        | _ => none

/-- JS `parseFloat` applied to a string: leading whitespace skipped, the
longest valid numeric prefix is taken, trailing garbage ignored; `none`
(NaN) when no digits can be read. -/
def parseFloatStr (s : String) : Option ℚ :=
  let cs := s.data.dropWhile jsWs
  let (neg, cs1) : Bool × List Char :=
    match cs with
    | '+' :: r => (false, r)
    | '-' :: r => (true, r)
    | _ => (false, cs)
  match parseMantissa cs1 with
  | none => none
  | some (q, rest) =>
    let q2 :=
      match parseExponentPart q rest with
      | some (qe, _) => qe
      | none => q
    some (if neg then -q2 else q2)

/-- JS `Number()` on a runtime JSON value (`none` = NaN).  Arrays convert
through their comma-joined string form; one nesting level of that
conversion is modelled, which covers every shape this pipeline meets. -/
def jsNum : Json → Option ℚ
  | Json.null => some 0
  | Json.bool b => some (if b then 1 else 0)
  | Json.num q => some q
  | Json.str s => toNumberString s
  | Json.arr [] => some 0
  | Json.arr [Json.null] => some 0
  | Json.arr [Json.num q] => some q
  | Json.arr [Json.str s] => toNumberString s
  | Json.arr _ => none
  | Json.obj _ => none

/-- The idiom `Number(x) || dflt` of coercion with default in of
`parseUpDownResponse` — the default is taken when the coercion yields NaN
(in particular on an absent field) and also when it yields `0`, since `0`
is falsy. -/
def jsNumOr (v : Option Json) (dflt : ℚ) : ℚ :=
  match v with
  | none => dflt
  | some x =>
    match jsNum x with
    | none => dflt
    | some q => if q = 0 then dflt else q

/-- Decimal digits of the fractional part `q ∈ [0, 1)`, with fuel; exact for
terminating decimals, which is every number this pipeline produces. -/
def fracDigitsAux : Nat → ℚ → List Char
  | 0, _ => []
  | fuel + 1, q =>
    if q = 0 then []
    else
      let d := ⌊q * 10⌋
      Nat.digitChar d.toNat :: fracDigitsAux fuel (q * 10 - (d : ℚ))

/-- Decimal rendering of a rational, as JS `String()` renders the numbers
this pipeline produces (all terminating decimals). -/
def qToString (q : ℚ) : String :=
  let sign := if q < 0 then "-" else ""
  let a := |q|
  let ip := natDecimal ⌊a⌋.toNat
  let fr := fracDigitsAux 30 (a - (⌊a⌋ : ℚ))
  if fr.isEmpty then sign ++ ip else sign ++ ip ++ "." ++ String.mk fr

/-- JS `String()` of an array element inside `Array.prototype.join`: `null`
renders as the empty string. -/
def jsElemToString : Json → String
  | Json.null => ""
  | Json.bool b => if b then "true" else "false"
  | Json.num q => qToString q
  | Json.str s => s
  | Json.arr _ => ""
  | Json.obj _ => "[object Object]"

/-- JS `String()` on a runtime JSON value (arrays join one level deep). -/
def jsToString : Json → String
  | Json.null => "null"
  | Json.bool b => if b then "true" else "false"
  | Json.num q => qToString q
  | Json.str s => s
  | Json.arr xs => String.intercalate "," (xs.map jsElemToString)
  | Json.obj _ => "[object Object]"

/-! ### `JSON.parse`

A JSON text parser over the character list, used to model `JSON.parse` where
the source applies it (the LLM reply content, the market registry's
string-encoded `outcomes`/`outcomePrices`).  Recursion is fuelled so every
function is structurally recursive and kernel-evaluable; the fuel chosen in
`jsonParse` is generous enough for any document of the given length. -/

/-- The `{` character, by code so that no brace appears in a literal. -/
def braceL : Char := Char.ofNat 123

/-- The `}` character. -/
def braceR : Char := Char.ofNat 125

/-- Value of a hexadecimal digit character. -/
def hexVal (c : Char) : Option Nat :=
  if c.isDigit then some (c.toNat - 48)
  else if 'a' ≤ c ∧ c ≤ 'f' then some (c.toNat - 87)
  else if 'A' ≤ c ∧ c ≤ 'F' then some (c.toNat - 55)
  else none

/-- Parse the body of a JSON string literal after the opening quote,
handling the escape sequences; returns the decoded characters and the
input after the closing quote. -/
def parseStringLit : List Char → Option (List Char × List Char)
  | [] => none
  | '"' :: rest => some ([], rest)
  | '\\' :: c :: rest =>
    match c with
    | '"' => (parseStringLit rest).map (fun p => ('"' :: p.1, p.2))
    | '\\' => (parseStringLit rest).map (fun p => ('\\' :: p.1, p.2))
    | '/' => (parseStringLit rest).map (fun p => ('/' :: p.1, p.2))
    | 'b' => (parseStringLit rest).map (fun p => ('\x08' :: p.1, p.2))
    | 'f' => (parseStringLit rest).map (fun p => ('\x0c' :: p.1, p.2))
    | 'n' => (parseStringLit rest).map (fun p => ('\n' :: p.1, p.2))
    | 'r' => (parseStringLit rest).map (fun p => ('\r' :: p.1, p.2))
    | 't' => (parseStringLit rest).map (fun p => ('\t' :: p.1, p.2))
    | 'u' =>
      match rest with
      | a :: b :: c2 :: d :: rest2 =>
        match hexVal a, hexVal b, hexVal c2, hexVal d with
        | some ha, some hb, some hc, some hd =>
          (parseStringLit rest2).map
            (fun p => (Char.ofNat (((ha * 16 + hb) * 16 + hc) * 16 + hd) :: p.1, p.2))
        | _, _, _, _ => none
      | _ => none
    | _ => none
  | c :: rest =>
    if c.toNat < 32 then none
    else (parseStringLit rest).map (fun p => (c :: p.1, p.2))

/-- Parse a JSON number literal (strict grammar: no leading `+`, no bare
point, `0` not followed by digits in the integer part — a violation leaves
the offending character in the remainder, failing the document exactly as
`JSON.parse` does). -/
def parseJsonNumber (s : List Char) : Option (ℚ × List Char) :=
  let signed : Bool × List Char :=
    match s with
    | '-' :: r => (true, r)
    | _ => (false, s)
  let neg := signed.1
  let s1 := signed.2
  let ipart : Option (ℚ × List Char) :=
    match s1 with
    | '0' :: r => some (0, r)
    | c :: _ =>
      if c.isDigit then
        let (ds, r) := spanDigits s1
        some ((decodeDec ds : ℚ), r)
      else none
    | [] => none
  match ipart with
  | none => none
  | some (ip, r1) =>
    let withFrac : Option (ℚ × List Char) :=
      match r1 with
      | '.' :: r2 =>
        let (fp, r3) := spanDigits r2
        if fp.isEmpty then none
        else some (ip + (decodeDec fp : ℚ) / 10 ^ fp.length, r3)
      | _ => some (ip, r1)
    match withFrac with
    | none => none
    | some (q, r4) =>
      match parseExponentPart q r4 with
      | some (qe, re) => some (if neg then -qe else qe, re)
      | none => some (if neg then -q else q, r4)

mutual

/-- Parse one JSON value; returns it and the unconsumed input. -/
def parseJsonV : Nat → List Char → Option (Json × List Char)
  | 0, _ => none
  | fuel + 1, s =>
    match s.dropWhile jsWs with
    | [] => none
    | 'n' :: 'u' :: 'l' :: 'l' :: r => some (Json.null, r)
    | 't' :: 'r' :: 'u' :: 'e' :: r => some (Json.bool true, r)
    | 'f' :: 'a' :: 'l' :: 's' :: 'e' :: r => some (Json.bool false, r)
    | '"' :: r =>
      match parseStringLit r with
      | some (cs, r2) => some (Json.str (String.mk cs), r2)
      | none => none
    | '[' :: r =>
      match r.dropWhile jsWs with
      | ']' :: r2 => some (Json.arr [], r2)
      | _ =>
        match parseJsonItems fuel r with
        | some (xs, r2) => some (Json.arr xs, r2)
        | none => none
    | c :: r =>
      if c = braceL then
        match r.dropWhile jsWs with
        | c2 :: r2 =>
          if c2 = braceR then some (Json.obj [], r2)
          else
            match parseJsonMembers fuel r with
            | some (fs, r3) => some (Json.obj fs, r3)
            | none => none
        | [] => none
      else if c.isDigit || c = '-' then
        match parseJsonNumber (c :: r) with
        | some (q, r2) => some (Json.num q, r2)
        | none => none
      else none

/-- Parse the comma-separated elements of a nonempty array and the closing
bracket. -/
def parseJsonItems : Nat → List Char → Option (List Json × List Char)
  | 0, _ => none
  | fuel + 1, s =>
    match parseJsonV fuel s with
    | none => none
    | some (v, r) =>
      match r.dropWhile jsWs with
      | ',' :: r2 =>
        match parseJsonItems fuel r2 with
        | some (xs, r3) => some (v :: xs, r3)
        | none => none
      | ']' :: r2 => some ([v], r2)
      | _ => none

/-- Parse the members of a nonempty object and the closing brace. -/
def parseJsonMembers : Nat → List Char → Option (List (String × Json) × List Char)
  | 0, _ => none
  | fuel + 1, s =>
    match s.dropWhile jsWs with
    | '"' :: r =>
      match parseStringLit r with
      | none => none
      | some (k, r2) =>
        match r2.dropWhile jsWs with
        | ':' :: r3 =>
          match parseJsonV fuel r3 with
          | none => none
          | some (v, r4) =>
            match r4.dropWhile jsWs with
            | ',' :: r5 =>
              match parseJsonMembers fuel r5 with
              | some (fs, r6) => some ((String.mk k, v) :: fs, r6)
              | none => none
            | c :: r5 =>
              if c = braceR then some ([(String.mk k, v)], r5) else none
            | [] => none
        | _ => none
    | _ => none

end

/-- Model of `JSON.parse`: parse a complete document, requiring only whitespace after
the value; `none` models the thrown `SyntaxError`. -/
def jsonParse (s : String) : Option Json :=
  match parseJsonV (2 * s.data.length + 4) s.data with
  | some (j, rest) => if (rest.dropWhile jsWs).isEmpty then some j else none
  | none => none

/-! ### Indicator Gateway (taapi.ts, TaapiClientService)

Each method's single HTTP GET (already wrapped in `retry`) is modelled by an
oracle argument `r : Except Unit Json`: `Except.error` is a rejected promise
(network error, timeout, HTTP error status — all retries exhausted),
`Except.ok body` a response whose parsed JSON body is `body`. -/

/-- Model of `fetchValue`: extracts `data[key]`, rounds a numeric value to 4 decimal
places, and returns `null` (`none`) on any error — a rejected request, a
`null` body (whose property access throws, caught by the same handler), a
missing field or a non-numeric field value. -/
def fetchValue (r : Except Unit Json) (key : String) : Option ℚ :=
  match r with
  | Except.error _ => none
  | Except.ok body =>
    match body with
    | Json.null => none
    | _ =>
      match jsGetSafe body key with
      | some (Json.num q) => some (round4 q)
      | _ => none

/-- Model of `fetchSeries`: returns `data[valueKey]` when it is an array, rounding
the numeric entries to 4 decimals and passing other entries through
unchanged; returns `[]` on a rejected request, falsy or non-object body
(where the `in` operator throws, caught), missing field or non-array
field. -/
def fetchSeries (r : Except Unit Json) (valueKey : String) : List Json :=
  match r with
  | Except.error _ => []
  | Except.ok body =>
    match body with
    | Json.obj fields =>
      match lookupField fields valueKey with
      | some (Json.arr xs) =>
        xs.map (fun v =>
          match v with
          | Json.num q => Json.num (round4 q)
          | _ => v)
      | _ => []
    | _ => []

/-- Model of `getHistoricalData`: raw response passthrough, `(response.data) ?? {}`,
and `{}` on any error. -/
def getHistoricalData (r : Except Unit Json) : Json :=
  match r with
  | Except.error _ => Json.obj []
  | Except.ok body =>
    match body with
    | Json.null => Json.obj []
    | _ => body

/-! ### utils.ts: roundOrNull, roundSeries -/

/-- Model of `roundOrNull(value, decimals)`: `null` for `null`/`undefined` input
(`none`) and for a value whose numeric coercion is NaN (`isNaN` coerces);
otherwise `Math.round(value * 10^d) / 10^d` of the coerced number. -/
def roundOrNull (value : Option Json) (d : Nat) : Option ℚ :=
  match value with
  | none => none
  | some Json.null => none
  | some v =>
    match jsNum v with
    | none => none
    | some q => some (roundTo d q)

/-- Model of `roundSeries(values, decimals)`: drops `null` entries and entries whose
numeric coercion is NaN, then rounds the remaining (coerced) values, so the
result is a list of numbers only. -/
def roundSeries (values : List Json) (d : Nat) : List ℚ :=
  values.filterMap (fun v =>
    match v with
    | Json.null => none
    | _ =>
      match jsNum v with
      | none => none
      | some q => some (roundTo d q))

/-- Whether `pre` starts the list `s`. -/
def listStartsWith : List Char → List Char → Bool
  | [], _ => true
  | _ :: _, [] => false
  | a :: as, b :: bs => a = b && listStartsWith as bs

/-- Whether `sub` occurs somewhere in `s`. -/
def listHasSeq (sub : List Char) : List Char → Bool
  | [] => sub.isEmpty
  | c :: rest => listStartsWith sub (c :: rest) || listHasSeq sub rest

/-- JS `String.prototype.includes`. -/
def containsSub (s sub : String) : Bool := listHasSeq sub.data s.data

/-! ### Market Snapshot Gateway (polymarketAPI.ts) -/

/-- An outcome with label and implied probability; the label keeps its
runtime JSON shape (the cast to `string[]` is unchecked). -/
structure MarketOutcome where
  label : Json
  price : ℚ

/-- Raw market of a Gamma API event. -/
structure PolymarketMarket where
  id : Option String
  question : Option String
  outcomes : Option String
  outcomePrices : Option String
  clobTokenIds : Option (List String)

/-- Raw Gamma API event. -/
structure PolymarketEvent where
  id : String
  slug : Option String
  title : Option String
  markets : Option (List PolymarketMarket)

/-- Simplified market data built by `fetchBtcUpDownMarkets`. -/
structure BtcMarketData where
  id : String
  question : String
  slug : String
  outcomes : List MarketOutcome
  clobTokenIds : List String

/-- The price of one outcome: `parseFloat(prices[i] ?? "0") || 0` — a `null`
price entry falls back to the string `"0"`, a NaN parse (and a parsed `0`)
yields `0`. -/
def outcomePrice (p : Json) : ℚ :=
  match p with
  | Json.null => 0
  | _ => (parseFloatStr (jsToString p)).getD 0

/-- Model of `parseOutcomes(outcomesJson, pricesJson)`: returns `[]` when either
string is absent, when either fails `JSON.parse`, when either parse result
is not an array, or when the two arrays have different lengths; otherwise
pairs labels with parsed prices. -/
def parseOutcomes (outcomesJson pricesJson : Option String) : List MarketOutcome :=
  match outcomesJson, pricesJson with
  | some oj, some pj =>
    if oj = "" ∨ pj = "" then []
    else
      match jsonParse oj, jsonParse pj with
      | some (Json.arr labels), some (Json.arr prices) =>
        if labels.length = prices.length then
          List.zipWith (fun l p => MarketOutcome.mk l (outcomePrice p)) labels prices
        else []
      | _, _ => []
  | _, _ => []

/-- The entry `fetchBtcUpDownMarkets` pushes for one market that passed the
outcome check. -/
def marketEntry (slug : String) (ev : PolymarketEvent) (mk : PolymarketMarket) : BtcMarketData :=
  { id := mk.id.getD ev.id
    question := mk.question.getD (ev.title.getD "")
    slug := ev.slug.getD slug
    outcomes := parseOutcomes mk.outcomes mk.outcomePrices
    clobTokenIds := mk.clobTokenIds.getD [] }

/-- The market loop of `fetchBtcUpDownMarkets` for one event: a market whose
`parseOutcomes` is empty is skipped (`continue`), every other market
contributes one `BtcMarketData`. -/
def eventMarketsLoop (slug : String) (ev : PolymarketEvent) :
    List PolymarketMarket → List BtcMarketData
  | [] => []
  | mk :: rest =>
    let outs := parseOutcomes mk.outcomes mk.outcomePrices
    if outs.length = 0 then eventMarketsLoop slug ev rest
    else marketEntry slug ev mk :: eventMarketsLoop slug ev rest

/-- The event loop of `fetchBtcUpDownMarkets` given the fetched events: with
a truthy slug (the orchestrator's path) the title filters are skipped and
every event's markets are processed. -/
def btcUpDownMarketsOfEvents (slug : String) (searchTitle : Option String)
    (events : List PolymarketEvent) : List BtcMarketData :=
  events.flatMap (fun ev =>
    let title := strToLower (ev.title.getD "")
    if slug = "" && !(containsSub title "btc" || containsSub title "bitcoin") then []
    else if slug = "" && (match searchTitle with
        | some st => !containsSub title (strToLower st)
        | none => false) then []
    else eventMarketsLoop slug ev (ev.markets.getD []))

/-! ### Decision Engine (prediction.ts, PolymarketUpDownAgent) -/

/-- Errors thrown by `parseUpDownResponse`: a `SyntaxError` from
`JSON.parse`, a `TypeError` from property access on `null`, and the
`Error("Missing or invalid decision field in LLM output")`. -/
inductive UpDownErr where
  | parseError
  | typeError
  | missingDecision

/-- JS property access that can throw: `o[k]` raises a `TypeError` when `o`
is `null`, otherwise behaves like `jsGetSafe`. -/
def jsMember (o : Json) (k : String) : Except UpDownErr (Option Json) :=
  match o with
  | Json.null => Except.error UpDownErr.typeError
  | _ => Except.ok (jsGetSafe o k)

/-- The typed decision built by the coercion step.  `direction` keeps its
runtime value (the cast `as UpDownDirection` performs no check). -/
structure UpDownDecision where
  market_slug : String
  direction : Json
  size_usd : ℚ
  max_loss_usd : ℚ
  edge_prob : ℚ

/-- The engine's output: free-text reasoning (kept at its runtime shape,
`(parsed.reasoning as string) || ''` performs no type check) and the
decision. -/
structure UpDownAgentOutput where
  reasoning : Json
  decision : UpDownDecision

/-- Model of `parseUpDownResponse(message, defaultSlug)`: selects `message.parsed`
when it is a truthy object, otherwise `JSON.parse(message.content || '{}')`;
extracts `reasoning` with an empty-string default; throws when the
`decision` member is absent, falsy, or fails `typeof === 'object'`; then
coerces the decision fields with truthiness defaults. -/
def parseUpDownResponse (msgParsed : Option Json) (msgContent : Option String)
    (defaultSlug : String) : Except UpDownErr UpDownAgentOutput :=
  let contentStr : String :=
    match msgContent with
    | some c => if c = "" then "\x7b\x7d" else c
    | none => "\x7b\x7d"
  let fallback : Except UpDownErr Json :=
    match jsonParse contentStr with
    | some j => Except.ok j
    | none => Except.error UpDownErr.parseError
  let parsedE : Except UpDownErr Json :=
    match msgParsed with
    | some p => if jsTruthy p && jsTypeofObject p then Except.ok p else fallback
    | none => fallback
  match parsedE with
  | Except.error e => Except.error e
  | Except.ok parsed =>
    match jsMember parsed "reasoning" with
    | Except.error e => Except.error e
    | Except.ok reasoningV =>
      let reasoning : Json :=
        match reasoningV with
        | some r => if jsTruthy r then r else Json.str ""
        | none => Json.str ""
      match jsMember parsed "decision" with
      | Except.error e => Except.error e
      | Except.ok none => Except.error UpDownErr.missingDecision
      | Except.ok (some dj) =>
        if !jsTruthy dj || !jsTypeofObject dj then Except.error UpDownErr.missingDecision
        else
          Except.ok
            { reasoning
              decision :=
                { market_slug :=
                    jsToString
                      (match jsGetSafe dj "market_slug" with
                       | some v => if jsTruthy v then v else Json.str defaultSlug
                       | none => Json.str defaultSlug)
                  direction :=
                    match jsGetSafe dj "direction" with
                    | some v => if jsTruthy v then v else Json.str "NO_BET"
                    | none => Json.str "NO_BET"
                  size_usd := jsNumOr (jsGetSafe dj "size_usd") 0
                  max_loss_usd := jsNumOr (jsGetSafe dj "max_loss_usd") 0
                  edge_prob := jsNumOr (jsGetSafe dj "edge_prob") (1 / 2) } }

/-- Errors surfaced by `decideUpDown`: a rejected LLM HTTP call, the
`Error("Invalid LLM response: ...")` structural check, and the errors of
`parseUpDownResponse`. -/
inductive DecideErr where
  | transport
  | invalidResponse
  | response (e : UpDownErr)

/-- JS index access `v[0]` on a truthy value. -/
def jsIdx0 : Json → Option Json
  | Json.arr xs => xs.head?
  | Json.str s => (s.data.head?).map (fun c => Json.str (String.mk [c]))
  | Json.obj fields => lookupField fields "0"
  | _ => none

/-- Result of one `decideUpDown` run together with the number of LLM
invocations it performed. -/
structure DecideOutcome where
  result : Except DecideErr UpDownAgentOutput
  llmCalls : Nat

/-- The body of `decideUpDown` applied to the outcome of its single LLM
call: propagates a transport failure; raises the structural error when
there is no choice, no message or non-string content; otherwise parses the
reply. -/
def decideUpDownResult (reply : Except Unit Json) (defaultSlug : String) :
    Except DecideErr UpDownAgentOutput :=
  match reply with
  | Except.error _ => Except.error DecideErr.transport
  | Except.ok respJson =>
    match respJson with
    | Json.null => Except.error (DecideErr.response UpDownErr.typeError)
    | _ =>
      let choice : Option Json :=
        match jsGetSafe respJson "choices" with
        | none => none
        | some cv => if jsTruthy cv then jsIdx0 cv else none
      match choice with
      | none => Except.error DecideErr.invalidResponse
      | some ch =>
        if !jsTruthy ch then Except.error DecideErr.invalidResponse
        else
          match jsGetSafe ch "message" with
          | none => Except.error DecideErr.invalidResponse
          | some msg =>
            if !jsTruthy msg then Except.error DecideErr.invalidResponse
            else
              match jsGetSafe msg "content" with
              | some (Json.str content) =>
                (parseUpDownResponse (jsGetSafe msg "parsed") (some content)
                    defaultSlug).mapError DecideErr.response
              | _ => Except.error DecideErr.invalidResponse

/-- Model of `decideUpDown`: issues exactly one LLM call (`llm k` is the outcome of
the `k`-th call, counted from 0, so later entries model the replies a
retry loop would have seen).  No retry of any kind is performed: the
result is that of the first reply and the call count is one. -/
def decideUpDown (llm : Nat → Except Unit Json) (defaultSlug : String) : DecideOutcome :=
  ⟨decideUpDownResult (llm 0) defaultSlug, 1⟩

/-! ### Indicator Catalog (indicators.const.ts) -/

/-- Maps a TAAPI response key to an output id for multi-value indicators. -/
structure MultiValueKey where
  responseKey : String
  outputId : String

/-- A static indicator definition. -/
structure IndicatorDefinition where
  id : String
  nameKey : String
  taapiIndicator : String
  params : List (String × ℚ)
  valueKey : Option String
  fetchSeries : Bool
  multiValueKeys : Option (List MultiValueKey)

/-- The static indicator registry `AVAILABLE_INDICATORS`. -/
def AVAILABLE_INDICATORS : List IndicatorDefinition :=
  [ ⟨"ema_20", "ai_indicator_ema_20", "ema", [("period", 20)], some "value", true, none⟩,
    ⟨"ema_50", "ai_indicator_ema_50", "ema", [("period", 50)], some "value", false, none⟩,
    ⟨"macd", "ai_indicator_macd", "macd", [], some "valueMACD", true, none⟩,
    ⟨"rsi_7", "ai_indicator_rsi_7", "rsi", [("period", 7)], some "value", true, none⟩,
    ⟨"rsi_14", "ai_indicator_rsi_14", "rsi", [("period", 14)], some "value", true, none⟩,
    ⟨"bbands", "ai_indicator_bbands", "bbands", [("period", 20)], none, true,
      some [⟨"valueUpperBand", "bbands_upper"⟩, ⟨"valueMiddleBand", "bbands_middle"⟩,
            ⟨"valueLowerBand", "bbands_lower"⟩]⟩,
    ⟨"atr_3", "ai_indicator_atr_3", "atr", [("period", 3)], some "value", false, none⟩,
    ⟨"atr_14", "ai_indicator_atr_14", "atr", [("period", 14)], some "value", false, none⟩ ]

/-- Default intraday indicator ids. -/
def DEFAULT_INTRADAY_INDICATOR_IDS : List String := ["ema_20", "macd", "rsi_7", "rsi_14"]

/-- Default long-term indicator ids. -/
def DEFAULT_LONGTERM_INDICATOR_IDS : List String :=
  ["ema_20", "ema_50", "atr_3", "atr_14", "macd", "rsi_14"]

/-- Model of `getIndicatorsByIds`: looks each id up in the registry and drops ids
that resolve to nothing. -/
def getIndicatorsByIds (ids : List String) : List IndicatorDefinition :=
  ids.filterMap (fun i => AVAILABLE_INDICATORS.find? (fun ind => ind.id == i))

/-! ### Market Data Aggregator (prediction.ts) -/

/-- One indicator bundle: latest values and recent series per output id, as
built by `fetchIndicatorsByDefs`.  JS object assignment is modelled by
appending the binding (entries listed later would shadow earlier ones of
the same key, which never happens for distinct definition ids). -/
structure IndicatorBundle where
  values : List (String × Option ℚ)
  series : List (String × List ℚ)

/-- Truthiness of the optional `valueKey` string field. -/
def valueKeyTruthy (d : IndicatorDefinition) : Bool :=
  match d.valueKey with
  | some k => k ≠ ""
  | none => false

/-- The multi-value branch: for each response-key/output-id pair, coerce the
raw series (non-numeric entries become `0`, a bare number becomes a
singleton, anything else the empty list), then store the 2-decimal rounded
series and latest value. -/
def multiValueStep (data : Json) : List MultiValueKey → IndicatorBundle → IndicatorBundle
  | [], st => st
  | mvk :: rest, st =>
    let raw := jsGetSafe data mvk.responseKey
    let arr : List ℚ :=
      match raw with
      | some (Json.arr xs) => xs.map (fun v => match v with | Json.num q => q | _ => 0)
      | some (Json.num q) => [q]
      | _ => []
    multiValueStep data rest
      { values := st.values ++ [(mvk.outputId, roundOrNull ((arr.getLast?).map Json.num) 2)]
        series := st.series ++ [(mvk.outputId, roundSeries (arr.map Json.num) 2)] }

/-- One iteration of the `fetchIndicatorsByDefs` loop for definition `d`
whose upstream call outcome is `r`. -/
def indicatorStep (r : Except Unit Json) (d : IndicatorDefinition)
    (st : IndicatorBundle) : IndicatorBundle :=
  if (match d.multiValueKeys with | some l => decide (l.length ≠ 0) | none => false) then
    multiValueStep (getHistoricalData r) (d.multiValueKeys.getD []) st
  else if d.fetchSeries && valueKeyTruthy d then
    let arr := fetchSeries r (d.valueKey.getD "")
    { values := st.values ++ [(d.id, roundOrNull arr.getLast? 2)]
      series := st.series ++ [(d.id, roundSeries arr 2)] }
  else if valueKeyTruthy d then
    { st with
      values := st.values ++ [(d.id, roundOrNull ((fetchValue r (d.valueKey.getD "")).map Json.num) 2)] }
  else st

/-- One pass of `fetchIndicatorsByDefs` over its definitions, with `resp i` the outcome
of the upstream call made for the `i`-th definition. -/
def fetchIndicatorsByDefsAux (resp : Nat → Except Unit Json) :
    Nat → List IndicatorDefinition → IndicatorBundle → IndicatorBundle
  | _, [], st => st
  | i, d :: rest, st => fetchIndicatorsByDefsAux resp (i + 1) rest (indicatorStep (resp i) d st)

/-- Model of `fetchIndicatorsByDefs(asset, timeframe, seriesResults, defs)`; the
network parameters are absorbed by the response oracle. -/
def fetchIndicatorsByDefs (resp : Nat → Except Unit Json)
    (defs : List IndicatorDefinition) : IndicatorBundle :=
  fetchIndicatorsByDefsAux resp 0 defs ⟨[], []⟩

/-- Market data for a single asset. -/
structure MarketSection where
  asset : String
  current_price : Option ℚ
  timestamp : String
  intraday : IndicatorBundle
  long_term : IndicatorBundle

/-- Model of `fetchAssetMarketData`: the three concurrent gathers (two indicator
bundles, one price fetch) assembled into a `MarketSection`. -/
def fetchAssetMarketData (asset timestamp : String)
    (intradayResp longTermResp : Nat → Except Unit Json) (priceResp : Except Unit Json)
    (intradayDefs longTermDefs : List IndicatorDefinition) : MarketSection :=
  { asset
    current_price := fetchValue priceResp "value"
    timestamp
    intraday := fetchIndicatorsByDefs intradayResp intradayDefs
    long_term := fetchIndicatorsByDefs longTermResp longTermDefs }

/-- Model of `getCurrentMarketData` for its (single) asset, given the outcome of the
awaited `fetchAssetMarketData` call: a successful section is pushed, a
raised error is caught and logged and the asset omitted, never re-raised. -/
def getCurrentMarketData (gather : Except Unit MarketSection) : List MarketSection :=
  match gather with
  | Except.ok s => [s]
  | Except.error _ => []

/-! ### Invariant predicates and concrete scenario inputs -/

/-- In exact arithmetic, `q` has at most two decimal places. -/
def twoDecimal (q : ℚ) : Prop := ∃ z : ℤ, q * 100 = z

/-- Every latest value and every series element of the bundle has been
rounded to two decimal places. -/
def bundleTwoDecimal (st : IndicatorBundle) : Prop :=
  (∀ p ∈ st.values, ∀ q : ℚ, p.2 = some q → twoDecimal q) ∧
  (∀ p ∈ st.series, ∀ q ∈ p.2, twoDecimal q)

/-- The §8 example LLM content: textual `size_usd`, `null` `max_loss_usd`,
unparseable `edge_prob`. -/
def exampleContent : String :=
  "\x7b\"reasoning\":\"x\",\"decision\":\x7b\"market_slug\":\"btc-updown-15m-1770690600\",\"direction\":\"UP\",\"size_usd\":\"10\",\"max_loss_usd\":null,\"edge_prob\":\"bad\"\x7d\x7d"

/-- LLM content whose decision carries an invalid but truthy `direction`
and a legitimate numeric `edge_prob` of `0`. -/
def truthyDirectionContent : String :=
  "\x7b\"reasoning\":\"x\",\"decision\":\x7b\"market_slug\":\"s\",\"direction\":\"SIDEWAYS\",\"size_usd\":1,\"max_loss_usd\":0,\"edge_prob\":0\x7d\x7d"

/-- LLM content whose `decision` field is a JSON array (not an object). -/
def arrayDecisionContent : String := "\x7b\"reasoning\":\"x\",\"decision\":[]\x7d"

/-- LLM content lacking the `decision` field (the §8 structural-error
example). -/
def missingDecisionContent : String := "\x7b\"reasoning\":\"x\"\x7d"

/-- A well-formed LLM content with a complete decision object. -/
def wellFormedContent : String :=
  "\x7b\"reasoning\":\"ok\",\"decision\":\x7b\"market_slug\":\"s\",\"direction\":\"UP\",\"size_usd\":10,\"max_loss_usd\":10,\"edge_prob\":0.6\x7d\x7d"

/-- Wrap LLM content into the transport shape
`{choices: [{message: {content: ...}}]}`. -/
def llmReplyOf (content : String) : Json :=
  Json.obj [("choices", Json.arr [Json.obj [("message", Json.obj [("content", Json.str content)])]])]

/-- An LLM oracle whose first reply is malformed (its content lacks the
`decision` field) and whose second reply is well-formed: the sequence a
retrying engine would consume. -/
def malformedThenGoodLLM : Nat → Except Unit Json := fun k =>
  if k = 0 then Except.ok (llmReplyOf missingDecisionContent)
  else Except.ok (llmReplyOf wellFormedContent)

/-- A well-formed market: both nested JSON arrays parse and match. -/
def goodMarket : PolymarketMarket :=
  ⟨some "m1", some "q", some "[\"Up\",\"Down\"]", some "[\"0.52\",\"0.48\"]", some ["t1", "t2"]⟩

/-- A market whose `outcomePrices` is malformed JSON (the §8 example
`"[0.5"`). -/
def badMarket : PolymarketMarket :=
  ⟨some "m2", some "q2", some "[\"Up\",\"Down\"]", some "[0.5", none⟩

/-- An event holding the malformed market next to the well-formed one. -/
def exEvent : PolymarketEvent :=
  ⟨"e1", some "btc-updown-15m-1770690600", some "Bitcoin Up or Down", some [badMarket, goodMarket]⟩

/-- The §8 retry scenario: an operation that fails on its first two
invocations and succeeds on the third. -/
def failTwiceOp : Nat → Except Nat Nat := fun j =>
  if j < 3 then Except.error j else Except.ok 42

/-- A concrete indicator response: a body carrying a 5-decimal `value`. -/
def c10Resp : Nat → Except Unit Json := fun _ =>
  Except.ok (Json.obj [("value", Json.num (123456 / 100000))])

/-- A concrete single-value definition list (the `ema_50` indicator). -/
def c10Defs : List IndicatorDefinition := getIndicatorsByIds ["ema_50"]

/-! ## Theorems -/

/-! ### Helper lemmas for decimal rendering (claim C3) -/

theorem digitChar_decode {d : Nat} (h : d < 10) : (Nat.digitChar d).toNat - 48 = d := by
  have key : ∀ x : Fin 10, (Nat.digitChar x.val).toNat - 48 = x.val := by decide
  exact key ⟨d, h⟩

theorem decodeDec_append_digit (l : List Char) (c : Char) :
    decodeDec (l ++ [c]) = 10 * decodeDec l + (c.toNat - 48) := by
  simp [decodeDec]

theorem natDecimalAux_decode : ∀ fuel n, n < fuel → decodeDec (natDecimalAux fuel n) = n := by
  intro fuel
  induction fuel with
  | zero => intro n h; omega
  | succ f ih =>
    intro n h
    match n with
    | 0 => simp [natDecimalAux, decodeDec]
    | m + 1 =>
      have hdivlt : (m + 1) / 10 < f := by
        have h1 : (m + 1) / 10 < m + 1 := Nat.div_lt_self (by omega) (by omega)
        omega
      have hmod : (m + 1) % 10 < 10 := Nat.mod_lt _ (by omega)
      calc decodeDec (natDecimalAux (f + 1) (m + 1))
          = decodeDec (natDecimalAux f ((m + 1) / 10) ++ [Nat.digitChar ((m + 1) % 10)]) := rfl
        _ = 10 * decodeDec (natDecimalAux f ((m + 1) / 10)) +
              ((Nat.digitChar ((m + 1) % 10)).toNat - 48) := decodeDec_append_digit _ _
        _ = 10 * ((m + 1) / 10) + (m + 1) % 10 := by
              rw [ih _ hdivlt, digitChar_decode hmod]
        _ = m + 1 := by omega

theorem decode_natDecimal (n : Nat) : decodeDec (natDecimal n).data = n := by
  by_cases h : n = 0
  · subst h; rfl
  · have : natDecimal n = String.mk (natDecimalAux (n + 1) n) := by
      simp [natDecimal, h]
    rw [this]
    exact natDecimalAux_decode (n + 1) n (by omega)

theorem natDecimal_injective {m n : Nat} (h : natDecimal m = natDecimal n) : m = n := by
  have := congrArg (fun s => decodeDec s.data) h
  simpa [decode_natDecimal] using this

theorem string_data_append (a b : String) : (a ++ b).data = a.data ++ b.data := by
  cases a; cases b; rfl

/-- Claim C3 (counterexample): the concrete claim is wrong at timestamp
1770690900 — that instant is 300 seconds into the window starting at
1770690600 (1770690900 is not a multiple of 900), so the code yields
`btc-updown-15m-1770690600`, not `btc-updown-15m-1770690900`; 1770690899
and 1770690900 sit in the same bucket, not adjacent ones. -/
theorem C3_computeSlug_counterexample :
    computeSlug "BTC" 1770690900 = "btc-updown-15m-1770690600" ∧
    1770690900 % 900 = 300 ∧
    1770690899 / 900 = 1770690900 / 900 := by
  refine ⟨by decide, by decide, by decide⟩

/-- Claim C3 (amended): the slug computation is
`asset.toLowerCase() + "-updown-15m-" + (floor(t / 900) * 900)`: two
timestamps in the same 900-second bucket yield identical slugs, timestamps
in adjacent buckets yield different slugs; concretely, for asset BTC the
timestamps 1770690605, 1770690899 and 1770690900 all fall in the window
starting 1770690600 and yield `btc-updown-15m-1770690600`, while 1770691500
starts the next window and yields `btc-updown-15m-1770691500`. -/
theorem C3_computeSlug_windows :
    (∀ (a : String) (t1 t2 : Nat), t1 / 900 = t2 / 900 →
       computeSlug a t1 = computeSlug a t2) ∧
    (∀ (a : String) (t1 t2 : Nat), t1 / 900 + 1 = t2 / 900 →
       computeSlug a t1 ≠ computeSlug a t2) ∧
    computeSlug "BTC" 1770690605 = "btc-updown-15m-1770690600" ∧
    computeSlug "BTC" 1770690899 = "btc-updown-15m-1770690600" ∧
    computeSlug "BTC" 1770691500 = "btc-updown-15m-1770691500" := by
  have hfif : fifteenMinutes = 900 := rfl
  refine ⟨?_, ?_, by decide, by decide, by decide⟩
  · intro a t1 t2 h
    simp only [computeSlug, hfif, h]
  · intro a t1 t2 h heq
    have hdata := congrArg String.data heq
    simp only [computeSlug, hfif, string_data_append] at hdata
    have htail := List.append_cancel_left hdata
    have hnat : natDecimal (t1 / 900 * 900) = natDecimal (t2 / 900 * 900) := by
      have h1 : (natDecimal (t1 / 900 * 900)).data = (natDecimal (t2 / 900 * 900)).data := htail
      cases hx : natDecimal (t1 / 900 * 900)
      cases hy : natDecimal (t2 / 900 * 900)
      rw [hx, hy] at h1
      exact congrArg String.mk h1
    have := natDecimal_injective hnat
    omega

/-- Witness for C3 at concrete inputs: same window for 1770690605 and
1770690900, different window for 1770691500 (the next bucket). -/
theorem C3_computeSlug_windows_witness :
    computeSlug "BTC" 1770690605 = computeSlug "BTC" 1770690900 ∧
    computeSlug "BTC" 1770690605 ≠ computeSlug "BTC" 1770691500 :=
  ⟨C3_computeSlug_windows.1 "BTC" 1770690605 1770690900 (by decide),
   C3_computeSlug_windows.2.1 "BTC" 1770690605 1770691500 (by decide)⟩

/-- Claim C9: the Indicator Gateway's 4-decimal rounding
`Math.round(x * 10000) / 10000` is idempotent on exact rationals. -/
theorem C9_round4_idempotent (q : ℚ) : round4 (round4 q) = round4 q := by
  unfold round4 roundTo
  have hne : ((10 : ℚ) ^ 4) ≠ 0 := by norm_num
  have h : ((round (q * 10 ^ 4) : ℤ) : ℚ) / 10 ^ 4 * 10 ^ 4 = ((round (q * 10 ^ 4) : ℤ) : ℚ) :=
    div_mul_cancel₀ _ hne
  rw [h, round_intCast]

/-- Claim C5: the aggregator returns a fully-populated section for exactly
the assets whose gather succeeded; a raised gather error is caught and the
asset omitted without aborting, and every returned entry is the complete
section of a successful gather. -/
theorem C5_aggregator_omits_failed :
    (∀ s : MarketSection, getCurrentMarketData (Except.ok s) = [s]) ∧
    (getCurrentMarketData (Except.error ()) = []) ∧
    (∀ (g : Except Unit MarketSection) (s : MarketSection),
       s ∈ getCurrentMarketData g ↔ g = Except.ok s) := by
  refine ⟨fun s => rfl, rfl, fun g s => ?_⟩
  cases g with
  | ok s0 =>
    simp only [getCurrentMarketData, List.mem_singleton]
    constructor
    · intro h; rw [h]
    · intro h; injection h with h; rw [h]
  | error e =>
    simp [getCurrentMarketData]

/-- Claim C4: on every failing indicator fetch the gateway returns the
neutral value instead of raising — a rejected request gives `null`/`[]`,
and a successful response with malformed body, missing field or non-numeric
(resp. non-array) field value likewise degrades to `null`/`[]`. -/
theorem C4_gateway_never_raises :
    (∀ key : String, fetchValue (Except.error ()) key = none) ∧
    (∀ key : String, fetchSeries (Except.error ()) key = []) ∧
    (∀ (body : Json) (key : String),
       (∀ q : ℚ, jsGetSafe body key ≠ some (Json.num q)) →
       fetchValue (Except.ok body) key = none) ∧
    (∀ (fields : List (String × Json)) (key : String),
       (∀ xs : List Json, lookupField fields key ≠ some (Json.arr xs)) →
       fetchSeries (Except.ok (Json.obj fields)) key = []) ∧
    (∀ (body : Json) (key : String),
       (∀ fields : List (String × Json), body ≠ Json.obj fields) →
       fetchSeries (Except.ok body) key = []) := by
  refine ⟨fun _ => rfl, fun _ => rfl, ?_, ?_, ?_⟩
  · intro body key h
    cases body with
    | null => rfl
    | bool b => simp [fetchValue, jsGetSafe]
    | num q => simp [fetchValue, jsGetSafe]
    | str s => simp [fetchValue, jsGetSafe]
    | arr xs => simp [fetchValue, jsGetSafe]
    | obj fields =>
      cases hv : jsGetSafe (Json.obj fields) key with
      | none => simp [fetchValue, hv]
      | some v =>
        cases v with
        | num q => exact absurd hv (h q)
        | null => simp [fetchValue, hv]
        | bool b => simp [fetchValue, hv]
        | str s => simp [fetchValue, hv]
        | arr xs => simp [fetchValue, hv]
        | obj f2 => simp [fetchValue, hv]
  · intro fields key h
    cases hv : lookupField fields key with
    | none => simp [fetchSeries, hv]
    | some v =>
      cases v with
      | arr xs => exact absurd hv (h xs)
      | null => simp [fetchSeries, hv]
      | bool b => simp [fetchSeries, hv]
      | num q => simp [fetchSeries, hv]
      | str s => simp [fetchSeries, hv]
      | obj f2 => simp [fetchSeries, hv]
  · intro body key h
    cases body with
    | obj fields => exact absurd rfl (h fields)
    | null => rfl
    | bool b => rfl
    | num q => rfl
    | str s => rfl
    | arr xs => rfl

/-- Witness for C4: a timed-out fetch yields `null` and `[]`; a body whose
`value` field is the string `"oops"` yields `null`; a body whose `value`
field is not an array yields `[]`. -/
theorem C4_gateway_never_raises_witness :
    fetchValue (Except.error ()) "value" = none ∧
    fetchSeries (Except.error ()) "value" = [] ∧
    fetchValue (Except.ok (Json.obj [("value", Json.str "oops")])) "value" = none ∧
    fetchSeries (Except.ok (Json.obj [("value", Json.str "oops")])) "value" = [] ∧
    fetchSeries (Except.ok (Json.str "oops")) "value" = [] :=
  ⟨C4_gateway_never_raises.1 "value",
   C4_gateway_never_raises.2.1 "value",
   C4_gateway_never_raises.2.2.1 (Json.obj [("value", Json.str "oops")]) "value"
     (by intro q h; exact Option.noConfusion h (fun h1 => Json.noConfusion h1)),
   C4_gateway_never_raises.2.2.2.1 [("value", Json.str "oops")] "value"
     (by intro xs h; exact Option.noConfusion h (fun h1 => Json.noConfusion h1)),
   C4_gateway_never_raises.2.2.2.2 (Json.str "oops") "value"
     (by intro fields h; exact Json.noConfusion h)⟩

/-- Witness for C5 at a concrete section: a successful gather is returned
whole, a failed gather leaves the list empty. -/
theorem C5_aggregator_omits_failed_witness :
    getCurrentMarketData (Except.ok ⟨"BTC", none, "t", ⟨[], []⟩, ⟨[], []⟩⟩) =
      [⟨"BTC", none, "t", ⟨[], []⟩, ⟨[], []⟩⟩] ∧
    getCurrentMarketData (Except.error ()) = [] :=
  ⟨C5_aggregator_omits_failed.1 ⟨"BTC", none, "t", ⟨[], []⟩, ⟨[], []⟩⟩,
   C5_aggregator_omits_failed.2.1⟩

/-! ### Helper lemmas for the retry loop (claim C6) -/

theorem retryLoop_ok {E A : Type} (op : Nat → Except E A) (b : Nat) (v : A) :
    ∀ (k a r : Nat) (l : Option E), 1 ≤ a → k < r →
      (∀ j, a ≤ j → j < a + k → (op j).isOk = false) →
      op (a + k) = Except.ok v →
      retryLoop op b a r l =
        ⟨Except.ok v, (List.range k).map (fun i => b * 2 ^ (a - 1 + i)), k + 1⟩ := by
  intro k
  induction k with
  | zero =>
    intro a r l ha hr hf hs
    match r, hr with
    | r' + 1, _ =>
      rw [Nat.add_zero] at hs
      simp [retryLoop, hs]
  | succ k ih =>
    intro a r l ha hr hf hs
    match r, hr with
    | r' + 1, _ =>
      have hfa : (op a).isOk = false := hf a (le_refl a) (by omega)
      cases hoa : op a with
      | ok w => rw [hoa] at hfa; simp [Except.isOk, Except.toBool] at hfa
      | error e =>
        cases r' with
        | zero => omega
        | succ r'' =>
          have hrest := ih (a + 1) (r'' + 1) (some e) (by omega) (by omega)
            (fun j hj1 hj2 => hf j (by omega) (by omega))
            (by rw [show a + 1 + k = a + (k + 1) by omega]; exact hs)
          simp only [retryLoop, hoa, hrest]
          refine congrArg₂ _ rfl rfl |>.trans ?_
          have hw : b * 2 ^ (a - 1) :: (List.range k).map (fun i => b * 2 ^ (a + 1 - 1 + i)) =
              (List.range (k + 1)).map (fun i => b * 2 ^ (a - 1 + i)) := by
            rw [List.range_succ_eq_map, List.map_cons, List.map_map]
            refine congrArg₂ _ ?_ ?_
            · refine congrArg (fun t => b * 2 ^ t) ?_; omega
            · refine List.map_congr_left ?_
              intro i _
              simp only [Function.comp]
              refine congrArg (fun t => b * 2 ^ t) ?_
              omega
          rw [hw]

theorem retryLoop_allfail {E A : Type} (op : Nat → Except E A) (b : Nat) (e : Nat → E)
    (hop : ∀ j, op j = Except.error (e j)) :
    ∀ (r a : Nat) (l : Option E), 1 ≤ r → 1 ≤ a →
      retryLoop op b a r l =
        ⟨Except.error (some (e (a + r - 1))),
         (List.range (r - 1)).map (fun i => b * 2 ^ (a - 1 + i)), r⟩ := by
  intro r
  induction r with
  | zero => intro a l hr ha; omega
  | succ r' ih =>
    intro a l hr ha
    cases r' with
    | zero =>
      have : a + 1 - 1 = a := by omega
      simp [retryLoop, hop a, this]
    | succ r'' =>
      have hrest := ih (a + 1) (some (e a)) (by omega) (by omega)
      simp only [retryLoop, hop a, hrest]
      have harg : a + 1 + (r'' + 1) - 1 = a + (r'' + 1 + 1) - 1 := by omega
      have hw : b * 2 ^ (a - 1) ::
          (List.range (r'' + 1 - 1)).map (fun i => b * 2 ^ (a + 1 - 1 + i)) =
          (List.range (r'' + 1 + 1 - 1)).map (fun i => b * 2 ^ (a - 1 + i)) := by
        have h1 : r'' + 1 - 1 = r'' := by omega
        have h2 : r'' + 1 + 1 - 1 = r'' + 1 := by omega
        rw [h1, h2, List.range_succ_eq_map, List.map_cons, List.map_map]
        refine congrArg₂ _ ?_ ?_
        · refine congrArg (fun t => b * 2 ^ t) ?_; omega
        · refine List.map_congr_left ?_
          intro i _
          simp only [Function.comp]
          refine congrArg (fun t => b * 2 ^ t) ?_
          omega
      rw [harg, hw]

theorem retryLoop_calls_le {E A : Type} (op : Nat → Except E A) (b : Nat) :
    ∀ (r a : Nat) (l : Option E), (retryLoop op b a r l).calls ≤ r := by
  intro r
  induction r with
  | zero => intro a l; simp [retryLoop]
  | succ r' ih =>
    intro a l
    cases hoa : op a with
    | ok w => simp [retryLoop, hoa]
    | error e =>
      cases r' with
      | zero => simp [retryLoop, hoa]
      | succ r'' =>
        have hrec := ih (a + 1) (some e)
        have hstep : (retryLoop op b a (r'' + 1 + 1) l).calls =
            (retryLoop op b (a + 1) (r'' + 1) (some e)).calls + 1 := by
          rw [retryLoop, hoa]
        rw [hstep]
        omega

/-- Claim C6: the retry utility (defaults `maxAttempts = 3`,
`backoffBase = 500`) invokes the operation at most `maxAttempts` times,
stops at the first success returning its value after `k` invocations with
waits `base * 2^(attempt-1)` after each of the `k - 1` failed attempts,
and after exhausting all attempts re-raises the last error having waited
after every failed attempt except the last. -/
theorem C6_retry_spec {E A : Type} (m b : Nat) (hm : 1 ≤ m) :
    (∀ (op : Nat → Except E A) (k : Nat) (v : A), 1 ≤ k → k ≤ m →
       (∀ j, 1 ≤ j → j < k → (op j).isOk = false) → op k = Except.ok v →
       retry op m b = ⟨Except.ok v, (List.range (k - 1)).map (fun i => b * 2 ^ i), k⟩) ∧
    (∀ (op : Nat → Except E A) (e : Nat → E), (∀ j, op j = Except.error (e j)) →
       retry op m b =
         ⟨Except.error (some (e m)), (List.range (m - 1)).map (fun i => b * 2 ^ i), m⟩) ∧
    (∀ op : Nat → Except E A, (retry op m b).calls ≤ m) := by
  refine ⟨?_, ?_, fun op => retryLoop_calls_le op b m 1 none⟩
  · intro op k v hk1 hkm hf hs
    have h := retryLoop_ok op b v (k - 1) 1 m none (le_refl 1) (by omega)
      (fun j hj1 hj2 => hf j hj1 (by omega))
      (by rw [show 1 + (k - 1) = k by omega]; exact hs)
    rw [retry, h]
    have hmap : (List.range (k - 1)).map (fun i => b * 2 ^ (1 - 1 + i)) =
        (List.range (k - 1)).map (fun i => b * 2 ^ i) := by
      refine List.map_congr_left ?_
      intro i _
      refine congrArg (fun t => b * 2 ^ t) ?_
      omega
    rw [hmap, show k - 1 + 1 = k by omega]
  · intro op e hop
    have h := retryLoop_allfail op b e hop m 1 none hm (le_refl 1)
    rw [retry, h, show 1 + m - 1 = m by omega]
    have hmap : (List.range (m - 1)).map (fun i => b * 2 ^ (1 - 1 + i)) =
        (List.range (m - 1)).map (fun i => b * 2 ^ i) := by
      refine List.map_congr_left ?_
      intro i _
      refine congrArg (fun t => b * 2 ^ t) ?_
      omega
    rw [hmap]

/-- Witness for C6: the §8 scenario — fail twice then succeed, with
`maxAttempts = 3` and base 500 — returns the success value after waits of
500 then 1000 ms. -/
theorem C6_retry_spec_witness :
    retry failTwiceOp 3 500 = ⟨Except.ok 42, [500, 1000], 3⟩ := by
  have h := (@C6_retry_spec Nat Nat 3 500 (by decide)).1 failTwiceOp 3 42 (by decide)
    (le_refl 3) (fun j h1 h2 => by interval_cases j <;> rfl) (by rfl)
  rw [h]
  have : (List.range 2).map (fun i => 500 * 2 ^ i) = [500, 1000] := by decide
  rw [show (3 : Nat) - 1 = 2 from rfl, this]

/-- Claim C7: the Market Snapshot Gateway excludes a market whose
JSON-string-encoded outcome labels or prices are absent, malformed JSON,
non-arrays, or of mismatched lengths, instead of raising; the event loop
keeps exactly the markets with nonempty parsed outcomes, so well-formed
markets in the same event are still returned; concretely the §8 malformed
prices string `"[0.5"` empties the market's outcomes. -/
theorem C7_snapshot_defensive :
    (∀ o p : Option String, o = none ∨ p = none → parseOutcomes o p = []) ∧
    (∀ o p : String, jsonParse o = none ∨ jsonParse p = none →
       parseOutcomes (some o) (some p) = []) ∧
    (∀ (o p : String) (lj pj : Json), jsonParse o = some lj → jsonParse p = some pj →
       ((∀ xs, lj ≠ Json.arr xs) ∨ (∀ xs, pj ≠ Json.arr xs)) →
       parseOutcomes (some o) (some p) = []) ∧
    (∀ (o p : String) (ls ps : List Json), jsonParse o = some (Json.arr ls) →
       jsonParse p = some (Json.arr ps) → ls.length ≠ ps.length →
       parseOutcomes (some o) (some p) = []) ∧
    (∀ (slug : String) (ev : PolymarketEvent) (mks : List PolymarketMarket),
       eventMarketsLoop slug ev mks =
         (mks.filter
           (fun mk => decide ((parseOutcomes mk.outcomes mk.outcomePrices).length ≠ 0))).map
           (marketEntry slug ev)) ∧
    parseOutcomes (some "[\"Up\",\"Down\"]") (some "[0.5") = [] := by
  refine ⟨?_, ?_, ?_, ?_, ?_, by rfl⟩
  · intro o p h
    rcases h with h | h
    · subst h; cases p <;> rfl
    · subst h; cases o <;> rfl
  · intro o p h
    by_cases he : o = "" ∨ p = ""
    · simp [parseOutcomes, he]
    · rcases h with h | h <;> simp [parseOutcomes, he, h]
  · intro o p lj pj hjo hjp h
    by_cases he : o = "" ∨ p = ""
    · simp [parseOutcomes, he]
    · simp only [parseOutcomes, he, if_false, hjo, hjp]
      rcases h with h | h
      · cases lj with
        | arr xs => exact absurd rfl (h xs)
        | null => rfl
        | bool b => rfl
        | num q => rfl
        | str s => rfl
        | obj f => rfl
      · cases pj with
        | arr xs => exact absurd rfl (h xs)
        | null => cases lj <;> rfl
        | bool b => cases lj <;> rfl
        | num q => cases lj <;> rfl
        | str s => cases lj <;> rfl
        | obj f => cases lj <;> rfl
  · intro o p ls ps hjo hjp hlen
    by_cases he : o = "" ∨ p = ""
    · simp [parseOutcomes, he]
    · simp [parseOutcomes, he, hjo, hjp, hlen]
  · intro slug ev mks
    induction mks with
    | nil => rfl
    | cons mk rest ih =>
      by_cases h : (parseOutcomes mk.outcomes mk.outcomePrices).length = 0
      · simp [eventMarketsLoop, h, ih]
      · simp [eventMarketsLoop, h, ih]

/-- Witness for C7: the §8 malformed market is excluded through the
theorem's clauses, while the event loop on an event holding the malformed
market next to a well-formed one returns exactly the well-formed entry. -/
theorem C7_snapshot_defensive_witness :
    parseOutcomes (some "[\"Up\",\"Down\"]") (some "[0.5") = [] ∧
    eventMarketsLoop "btc-updown-15m-1770690600" exEvent [badMarket, goodMarket] =
      [marketEntry "btc-updown-15m-1770690600" exEvent goodMarket] := by
  constructor
  · exact C7_snapshot_defensive.2.1 "[\"Up\",\"Down\"]" "[0.5" (Or.inr (by rfl))
  · rw [C7_snapshot_defensive.2.2.2.2.1 "btc-updown-15m-1770690600" exEvent
      [badMarket, goodMarket]]
    rfl

/-- Claim C1 (counterexample): the claimed coercion is wrong on two points —
a decision object with the invalid but truthy direction `"SIDEWAYS"` keeps
it (the claim requires `NO_BET`), and a legitimate numeric `edge_prob` of
`0` is replaced by `0.5` (the claim requires numeric values to be
preserved). -/
theorem C1_coercion_counterexample :
    parseUpDownResponse none (some truthyDirectionContent) "s" =
      Except.ok ⟨Json.str "x", ⟨"s", Json.str "SIDEWAYS", 1, 0, 1 / 2⟩⟩ ∧
    Json.str "SIDEWAYS" ≠ Json.str "NO_BET" ∧
    (1 / 2 : ℚ) ≠ 0 := by
  refine ⟨by rfl, ?_, by norm_num⟩
  intro h
  injection h with h
  exact absurd h (by decide)

set_option maxRecDepth 40000 in
/-- Claim C1 (amended): for every parsed content object whose `decision`
member is an object, the coercion yields a decision where `reasoning`
defaults to the empty string when absent, `market_slug` defaults to the
requested slug when absent (a nonempty string value is preserved),
`direction` is replaced by `NO_BET` precisely when the field is absent or
JS-falsy — an invalid but truthy value is preserved unchecked —,
`size_usd`/`max_loss_usd` take the JS numeric coercion of their value with
`0` when that coercion is NaN or the field is absent, and `edge_prob` takes
its numeric coercion except that NaN, absence and also the legitimate value
`0` all yield `0.5`; the concrete §8 example content parses exactly as the
spec states. -/
theorem C1_coercion_amended :
    (∀ (pf df : List (String × Json)) (mc : Option String) (slug : String),
      lookupField pf "decision" = some (Json.obj df) →
      ∃ out : UpDownAgentOutput,
        parseUpDownResponse (some (Json.obj pf)) mc slug = Except.ok out ∧
        (lookupField pf "reasoning" = none → out.reasoning = Json.str "") ∧
        (lookupField df "market_slug" = none → out.decision.market_slug = slug) ∧
        (∀ s : String, lookupField df "market_slug" = some (Json.str s) → s ≠ "" →
           out.decision.market_slug = s) ∧
        (lookupField df "direction" = none → out.decision.direction = Json.str "NO_BET") ∧
        (∀ v, lookupField df "direction" = some v → jsTruthy v = true →
           out.decision.direction = v) ∧
        (∀ v, lookupField df "direction" = some v → jsTruthy v = false →
           out.decision.direction = Json.str "NO_BET") ∧
        (∀ q : ℚ, lookupField df "size_usd" = some (Json.num q) →
           out.decision.size_usd = q) ∧
        ((lookupField df "size_usd" = none ∨
          ∃ v, lookupField df "size_usd" = some v ∧ jsNum v = none) →
           out.decision.size_usd = 0) ∧
        (∀ q : ℚ, lookupField df "max_loss_usd" = some (Json.num q) →
           out.decision.max_loss_usd = q) ∧
        ((lookupField df "max_loss_usd" = none ∨
          ∃ v, lookupField df "max_loss_usd" = some v ∧ jsNum v = none) →
           out.decision.max_loss_usd = 0) ∧
        (∀ q : ℚ, q ≠ 0 → lookupField df "edge_prob" = some (Json.num q) →
           out.decision.edge_prob = q) ∧
        ((lookupField df "edge_prob" = none ∨
          (∃ v, lookupField df "edge_prob" = some v ∧ jsNum v = none) ∨
          lookupField df "edge_prob" = some (Json.num 0)) →
           out.decision.edge_prob = 1 / 2)) ∧
    parseUpDownResponse none (some exampleContent) "btc-updown-15m-1770690600" =
      Except.ok ⟨Json.str "x",
        ⟨"btc-updown-15m-1770690600", Json.str "UP", 10, 0, 1 / 2⟩⟩ := by
  constructor
  · intro pf df mc slug hdec
    have ht1 : jsTruthy (Json.obj pf) = true := rfl
    have ht2 : jsTypeofObject (Json.obj pf) = true := rfl
    have ht3 : jsTruthy (Json.obj df) = true := rfl
    have ht4 : jsTypeofObject (Json.obj df) = true := rfl
    simp only [parseUpDownResponse, jsMember, jsGetSafe, hdec, ht1, ht2, ht3, ht4,
      Bool.and_self, if_true, Bool.not_true, Bool.or_self, Bool.false_or, ite_false]
    refine ⟨_, rfl, ?_, ?_, ?_, ?_, ?_, ?_, ?_, ?_, ?_, ?_, ?_, ?_⟩
    · intro h; rw [h]
    · intro h; rw [h]; rfl
    · intro s h hs; rw [h]; simp [jsTruthy, hs, jsToString]
    · intro h; rw [h]
    · intro v h htr; rw [h]; simp [htr]
    · intro v h htr; rw [h]; simp [htr]
    · intro q h; rw [h]
      by_cases hq : q = 0 <;> simp [jsNumOr, jsNum, hq]
    · intro h
      rcases h with h | ⟨v, hv, hnum⟩
      · rw [h]; rfl
      · rw [hv]; simp [jsNumOr, hnum]
    · intro q h; rw [h]
      by_cases hq : q = 0 <;> simp [jsNumOr, jsNum, hq]
    · intro h
      rcases h with h | ⟨v, hv, hnum⟩
      · rw [h]; rfl
      · rw [hv]; simp [jsNumOr, hnum]
    · intro q hq h; rw [h]; simp [jsNumOr, jsNum, hq]
    · intro h
      rcases h with h | ⟨v, hv, hnum⟩ | h
      · rw [h]; rfl
      · rw [hv]; simp [jsNumOr, hnum]
      · rw [h]; simp [jsNumOr, jsNum]
  · rfl

/-- Witness for C1 at the §8 example: the decision object of the example
content is coerced to the stated record, obtained through the amended
theorem. -/
theorem C1_coercion_amended_witness :
    ∃ out : UpDownAgentOutput,
      parseUpDownResponse
        (some (Json.obj [("reasoning", Json.str "x"),
          ("decision", Json.obj [("market_slug", Json.str "btc-updown-15m-1770690600"),
            ("direction", Json.str "UP"), ("size_usd", Json.str "10"),
            ("max_loss_usd", Json.null), ("edge_prob", Json.str "bad")])]))
        none "btc-updown-15m-1770690600" = Except.ok out :=
  match C1_coercion_amended.1
      [("reasoning", Json.str "x"),
       ("decision", Json.obj [("market_slug", Json.str "btc-updown-15m-1770690600"),
         ("direction", Json.str "UP"), ("size_usd", Json.str "10"),
         ("max_loss_usd", Json.null), ("edge_prob", Json.str "bad")])]
      [("market_slug", Json.str "btc-updown-15m-1770690600"),
       ("direction", Json.str "UP"), ("size_usd", Json.str "10"),
       ("max_loss_usd", Json.null), ("edge_prob", Json.str "bad")]
      none "btc-updown-15m-1770690600" (by rfl) with
  | ⟨out, hok, _⟩ => ⟨out, hok⟩

/-- Claim C2 (counterexample): a reply whose `decision` field is the JSON
array `[]` — not an object — does NOT raise: the `typeof` check passes for
arrays, and the parser returns precisely the fully-defaulted decision
object the claim says is never returned. -/
theorem C2_missing_decision_counterexample :
    parseUpDownResponse none (some arrayDecisionContent) "default-slug" =
      Except.ok ⟨Json.str "x", ⟨"default-slug", Json.str "NO_BET", 0, 0, 1 / 2⟩⟩ := by
  rfl

/-- Claim C2 (amended): the parser raises precisely when the `decision`
member is absent, JS-falsy, or fails `typeof === 'object'` — a JSON array
passes that check and is coerced like an object, yielding a fully-defaulted
decision — and it never raises merely because a numeric field of a present
decision object is textual or missing; the §8 example `{"reasoning":"x"}`
raises the structural error. -/
theorem C2_missing_decision_amended :
    (∀ (pf : List (String × Json)) (mc : Option String) (slug : String),
       (lookupField pf "decision" = none →
          parseUpDownResponse (some (Json.obj pf)) mc slug =
            Except.error UpDownErr.missingDecision) ∧
       (∀ v, lookupField pf "decision" = some v → jsTruthy v = false →
          parseUpDownResponse (some (Json.obj pf)) mc slug =
            Except.error UpDownErr.missingDecision) ∧
       (∀ v, lookupField pf "decision" = some v → jsTypeofObject v = false →
          parseUpDownResponse (some (Json.obj pf)) mc slug =
            Except.error UpDownErr.missingDecision) ∧
       (∀ df, lookupField pf "decision" = some (Json.obj df) →
          ∃ out, parseUpDownResponse (some (Json.obj pf)) mc slug = Except.ok out) ∧
       (∀ xs, lookupField pf "decision" = some (Json.arr xs) →
          ∃ out, parseUpDownResponse (some (Json.obj pf)) mc slug = Except.ok out)) ∧
    parseUpDownResponse none (some missingDecisionContent) "s" =
      Except.error UpDownErr.missingDecision := by
  refine ⟨?_, by rfl⟩
  intro pf mc slug
  have ht1 : jsTruthy (Json.obj pf) = true := rfl
  have ht2 : jsTypeofObject (Json.obj pf) = true := rfl
  refine ⟨?_, ?_, ?_, ?_, ?_⟩
  · intro h
    simp only [parseUpDownResponse, jsMember, jsGetSafe, h, ht1, ht2, Bool.and_self, if_true]
  · intro v h htr
    simp only [parseUpDownResponse, jsMember, jsGetSafe, h, ht1, ht2, Bool.and_self, if_true,
      htr, Bool.not_false, Bool.true_or, ite_true]
  · intro v h hto
    simp only [parseUpDownResponse, jsMember, jsGetSafe, h, ht1, ht2, Bool.and_self, if_true,
      hto, Bool.not_false, Bool.or_true, ite_true]
  · intro df h
    have ht3 : jsTruthy (Json.obj df) = true := rfl
    have ht4 : jsTypeofObject (Json.obj df) = true := rfl
    simp only [parseUpDownResponse, jsMember, jsGetSafe, h, ht1, ht2, ht3, ht4,
      Bool.and_self, if_true, Bool.not_true, Bool.or_self, Bool.false_or, ite_false]
    exact ⟨_, rfl⟩
  · intro xs h
    have ht3 : jsTruthy (Json.arr xs) = true := rfl
    have ht4 : jsTypeofObject (Json.arr xs) = true := rfl
    simp only [parseUpDownResponse, jsMember, jsGetSafe, h, ht1, ht2, ht3, ht4,
      Bool.and_self, if_true, Bool.not_true, Bool.or_self, Bool.false_or, ite_false]
    exact ⟨_, rfl⟩

/-- Witness for C2: the §8 reply `{"reasoning":"x"}` — it lacks the
`decision` field — raises the structural error, through the amended
theorem. -/
theorem C2_missing_decision_amended_witness :
    parseUpDownResponse (some (Json.obj [("reasoning", Json.str "x")])) none "s" =
      Except.error UpDownErr.missingDecision :=
  (C2_missing_decision_amended.1 [("reasoning", Json.str "x")] none "s").1 (by rfl)

/-- Claim C8 (counterexample): the engine does not retry on malformed
output — on a reply sequence whose first reply lacks the `decision` field
while the second is well-formed, `decideUpDown` surfaces the structural
failure after exactly one LLM call, even though the retry the claim
describes would have succeeded (the same engine run on the tail of the
sequence returns a decision). -/
theorem C8_no_retry_counterexample :
    (decideUpDown malformedThenGoodLLM "s").result =
      Except.error (DecideErr.response UpDownErr.missingDecision) ∧
    (decideUpDown malformedThenGoodLLM "s").llmCalls = 1 ∧
    (∃ out, (decideUpDown (fun k => malformedThenGoodLLM (k + 1)) "s").result =
       Except.ok out) := by
  exact ⟨by rfl, by rfl, ⟨_, by rfl⟩⟩

/-- Claim C8 (amended): the Decision Engine performs no retry at all — it
makes exactly one LLM call, its outcome depends only on the first reply,
and a reply whose content fails to parse as JSON surfaces the parse
failure directly to the caller.  (The stricter "return only JSON" retry
instruction exists in the prompt module but is unused by the up/down
path.) -/
theorem C8_no_retry_amended :
    (∀ (llm : Nat → Except Unit Json) (slug : String),
       (decideUpDown llm slug).llmCalls = 1 ∧
       decideUpDown llm slug = decideUpDown (fun _ => llm 0) slug) ∧
    (∀ (s slug : String), s ≠ "" → jsonParse s = none →
       (decideUpDown (fun _ => Except.ok (llmReplyOf s)) slug).result =
         Except.error (DecideErr.response UpDownErr.parseError)) := by
  refine ⟨fun llm slug => ⟨rfl, rfl⟩, ?_⟩
  intro s slug hne h
  have hred : (decideUpDown (fun _ => Except.ok (llmReplyOf s)) slug).result =
      (parseUpDownResponse none (some s) slug).mapError DecideErr.response := rfl
  rw [hred]
  simp only [parseUpDownResponse, hne, h, ite_false, if_neg, Except.mapError]

/-- Witness for C8 at a concrete malformed reply: content `"oops"` is not
JSON, and the engine surfaces the parse failure. -/
theorem C8_no_retry_amended_witness :
    (decideUpDown (fun _ => Except.ok (llmReplyOf "oops")) "s").result =
      Except.error (DecideErr.response UpDownErr.parseError) :=
  C8_no_retry_amended.2 "oops" "s" (by decide) (by rfl)

/-! ### Helper lemmas for the 2-decimal invariant (claim C10) -/

theorem roundTo_hundred (q : ℚ) : roundTo 2 q * 100 = ((round (q * 10 ^ 2) : ℤ) : ℚ) := by
  unfold roundTo
  rw [show ((10 : ℚ) ^ 2) = 100 by norm_num]
  exact div_mul_cancel₀ _ (by norm_num)

theorem roundOrNull_two (v : Option Json) (q : ℚ) (h : roundOrNull v 2 = some q) :
    twoDecimal q := by
  cases v with
  | none => exact absurd h (by simp [roundOrNull])
  | some j =>
    cases j <;> simp only [roundOrNull] at h <;> try cases h
    all_goals
      first
      | exact ⟨_, roundTo_hundred _⟩
      | (split at h
         · cases h
         · injection h with h
           exact h ▸ ⟨_, roundTo_hundred _⟩)

theorem roundSeries_two (xs : List Json) (q : ℚ) (h : q ∈ roundSeries xs 2) :
    twoDecimal q := by
  unfold roundSeries at h
  rw [List.mem_filterMap] at h
  obtain ⟨v, _, hv⟩ := h
  cases v <;> simp only at hv <;> try cases hv
  all_goals
    first
    | exact ⟨_, roundTo_hundred _⟩
    | (split at hv
       · cases hv
       · injection hv with hv
         exact hv ▸ ⟨_, roundTo_hundred _⟩)

theorem bundle_append (st : IndicatorBundle) (k1 k2 : String) (ov : Option ℚ) (l : List ℚ)
    (h : bundleTwoDecimal st) (hv : ∀ q, ov = some q → twoDecimal q)
    (hl : ∀ q ∈ l, twoDecimal q) :
    bundleTwoDecimal ⟨st.values ++ [(k1, ov)], st.series ++ [(k2, l)]⟩ := by
  constructor
  · intro p hp q hq
    rcases List.mem_append.mp hp with hp | hp
    · exact h.1 p hp q hq
    · have := List.mem_singleton.mp hp
      subst this
      exact hv q hq
  · intro p hp q hq
    rcases List.mem_append.mp hp with hp | hp
    · exact h.2 p hp q hq
    · have := List.mem_singleton.mp hp
      subst this
      exact hl q hq

theorem bundle_append_value (st : IndicatorBundle) (k : String) (ov : Option ℚ)
    (h : bundleTwoDecimal st) (hv : ∀ q, ov = some q → twoDecimal q) :
    bundleTwoDecimal ⟨st.values ++ [(k, ov)], st.series⟩ := by
  constructor
  · intro p hp q hq
    rcases List.mem_append.mp hp with hp | hp
    · exact h.1 p hp q hq
    · have := List.mem_singleton.mp hp
      subst this
      exact hv q hq
  · exact h.2

theorem multiValueStep_two (data : Json) :
    ∀ (mvks : List MultiValueKey) (st : IndicatorBundle),
      bundleTwoDecimal st → bundleTwoDecimal (multiValueStep data mvks st) := by
  intro mvks
  induction mvks with
  | nil => intro st h; exact h
  | cons mvk rest ih =>
    intro st h
    exact ih _ (bundle_append st _ _ _ _ h (fun q hq => roundOrNull_two _ q hq)
      (fun q hq => roundSeries_two _ q hq))

theorem indicatorStep_two (r : Except Unit Json) (d : IndicatorDefinition)
    (st : IndicatorBundle) (h : bundleTwoDecimal st) :
    bundleTwoDecimal (indicatorStep r d st) := by
  unfold indicatorStep
  split
  · exact multiValueStep_two _ _ _ h
  · split
    · exact bundle_append st _ _ _ _ h (fun q hq => roundOrNull_two _ q hq)
        (fun q hq => roundSeries_two _ q hq)
    · split
      · exact bundle_append_value st _ _ h (fun q hq => roundOrNull_two _ q hq)
      · exact h

theorem fetchIndicatorsByDefsAux_two (resp : Nat → Except Unit Json) :
    ∀ (defs : List IndicatorDefinition) (i : Nat) (st : IndicatorBundle),
      bundleTwoDecimal st → bundleTwoDecimal (fetchIndicatorsByDefsAux resp i defs st) := by
  intro defs
  induction defs with
  | nil => intro i st h; exact h
  | cons d rest ih => intro i st h; exact ih _ _ (indicatorStep_two _ _ _ h)

/-- Claim C10: every non-null latest value and every series element the
aggregation step produces has been rounded to 2 decimal places — in exact
arithmetic its product with 100 is an integer — and series hold numbers
only (their model type is `List ℚ`: `roundSeries` drops null/NaN entries
and coerces the rest); a series of plain numbers is rounded elementwise
with nothing dropped (the multi-value path feeds such series after coercing
non-numeric upstream entries to 0); this sits on top of the gateway's
4-decimal rounding, whose product with 10^4 is an integer. -/
theorem C10_two_decimal_invariant (resp : Nat → Except Unit Json)
    (defs : List IndicatorDefinition) :
    bundleTwoDecimal (fetchIndicatorsByDefs resp defs) ∧
    (∀ l : List ℚ, roundSeries (l.map Json.num) 2 = l.map (roundTo 2)) ∧
    (∀ q : ℚ, ∃ z : ℤ, round4 q * 10 ^ 4 = z) := by
  refine ⟨fetchIndicatorsByDefsAux_two resp defs 0 ⟨[], []⟩ ⟨?_, ?_⟩, ?_, ?_⟩
  · intro p hp; exact absurd hp (List.not_mem_nil p)
  · intro p hp; exact absurd hp (List.not_mem_nil p)
  · intro l
    induction l with
    | nil => rfl
    | cons q rest ih =>
      simp only [List.map_cons, roundSeries, List.filterMap_cons] at ih ⊢
      exact congrArg (fun l => roundTo 2 q :: l) ih
  · intro q
    refine ⟨round (q * 10 ^ 4), ?_⟩
    unfold round4 roundTo
    exact div_mul_cancel₀ _ (by norm_num)

/-- Witness for C10: the single-value `ema_50` path over a concrete
response fills the latest value with the doubly-rounded number, which the
invariant certifies as a 2-decimal value. -/
theorem C10_two_decimal_invariant_witness :
    twoDecimal (roundTo 2 (round4 (123456 / 100000 : ℚ))) := by
  have hc : (fetchIndicatorsByDefs c10Resp c10Defs).values =
      [("ema_50", some (roundTo 2 (round4 (123456 / 100000 : ℚ))))] := rfl
  have hmem : ("ema_50", some (roundTo 2 (round4 (123456 / 100000 : ℚ)))) ∈
      (fetchIndicatorsByDefs c10Resp c10Defs).values := by
    rw [hc]; exact List.mem_singleton.mpr rfl
  exact (C10_two_decimal_invariant c10Resp c10Defs).1.1 _ hmem _ rfl

end PredBot
